import Mathlib

/-!
Shallow embedding of the yaavre AVR emulator (src/sreg.rs, src/registers.rs,
src/iomem.rs, src/emulator.rs) and proofs about the claims of its
specification.

Modelling conventions:
* Machine integers (`u8`, `u16`, `u32`, `usize`) become `Nat` with explicit
  `% 2^w` (or `&&& mask`) exactly where the Rust code wraps; arithmetic that
  overflows in Rust release mode is modelled with the wrapping result.
* `Vec<u8>` backing stores become total maps `Nat → Nat` together with an
  explicit bounds check at each indexing site; an out-of-bounds index
  (a Rust panic) is modelled as `Option.none`, as is every other panic
  (`Vec::remove` on an empty vector, an unimplemented opcode, ...).
* The diagnostic `println!` on an access to an unmodelled I/O address is
  modelled by appending the address to a `trace_log` field.
-/

namespace Yaavre

/-- AVR status register (src/sreg.rs, `SReg`): eight boolean flags. -/
structure SReg where
  c : Bool
  z : Bool
  n : Bool
  v : Bool
  s : Bool
  h : Bool
  t : Bool
  i : Bool
deriving Repr, DecidableEq

/-- `SReg::new`: all flags clear. -/
def SReg.new : SReg :=
  ⟨false, false, false, false, false, false, false, false⟩

/-- `SReg::as_u8`: pack the flags into a byte, bit 0 = C .. bit 7 = I. -/
def SReg.as_u8 (sr : SReg) : Nat :=
  (if sr.c then 1 <<< 0 else 0)
  ||| (if sr.z then 1 <<< 1 else 0)
  ||| (if sr.n then 1 <<< 2 else 0)
  ||| (if sr.v then 1 <<< 3 else 0)
  ||| (if sr.s then 1 <<< 4 else 0)
  ||| (if sr.h then 1 <<< 5 else 0)
  ||| (if sr.t then 1 <<< 6 else 0)
  ||| (if sr.i then 1 <<< 7 else 0)

/-- `SReg::set_u8`: unpack a byte into the eight flags. -/
def SReg.set_u8 (_sr : SReg) (val : Nat) : SReg where
  c := (val &&& (1 <<< 0)) != 0
  z := (val &&& (1 <<< 1)) != 0
  n := (val &&& (1 <<< 2)) != 0
  v := (val &&& (1 <<< 3)) != 0
  s := (val &&& (1 <<< 4)) != 0
  h := (val &&& (1 <<< 5)) != 0
  t := (val &&& (1 <<< 6)) != 0
  i := (val &&& (1 <<< 7)) != 0

/-- Register indices X, Y, Z (src/registers.rs). -/
def regX : Nat := 26

/-- Register index of the Y pair low byte. -/
def regY : Nat := 28

/-- Register index of the Z pair low byte. -/
def regZ : Nat := 30

/-- Register file (src/registers.rs, `RegisterFile`): `r: Vec<u8>` of 32
cells, modelled as a total map; only indices 0..31 are ever used. -/
structure RegisterFile where
  r : Nat → Nat

/-- `RegisterFile::new`: 32 zeroed cells. -/
def RegisterFile.new : RegisterFile :=
  ⟨fun _ => 0⟩

/-- `RegisterFile::get8`. -/
def RegisterFile.get8 (rf : RegisterFile) (i : Nat) : Nat :=
  rf.r i

/-- `RegisterFile::set8`. -/
def RegisterFile.set8 (rf : RegisterFile) (i val : Nat) : RegisterFile :=
  ⟨fun j => if j = i then val else rf.r j⟩

/-- `RegisterFile::get16`: little-endian pair view. -/
def RegisterFile.get16 (rf : RegisterFile) (i : Nat) : Nat :=
  rf.get8 i ||| (rf.get8 (i + 1) <<< 8)

/-- `RegisterFile::set16`: little-endian pair view. -/
def RegisterFile.set16 (rf : RegisterFile) (i val : Nat) : RegisterFile :=
  (rf.set8 i (val &&& 0xff)).set8 (i + 1) ((val >>> 8) &&& 0xff)

/-- I/O-register addresses (src/iomem.rs constants). -/
def RAMPD : Nat := 0x0038

/-- Address of RAMPX. -/
def RAMPX : Nat := 0x0039

/-- Address of RAMPY. -/
def RAMPY : Nat := 0x003A

/-- Address of RAMPZ. -/
def RAMPZ : Nat := 0x003B

/-- Address of EIND. -/
def EIND : Nat := 0x003C

/-- Address of SPL. -/
def SPL : Nat := 0x003D

/-- Address of SPH. -/
def SPH : Nat := 0x003E

/-- Address of the SREG mirror. -/
def SREG : Nat := 0x003F

/-- Capacity of the `data_mem` backing store: `vec![0; 1 << 22]`. -/
def DATA_MEM_SIZE : Nat := 1 <<< 22

/-- I/O memory (src/iomem.rs, `IOMemory`). `data_mem` is the `Vec<u8>` of
`DATA_MEM_SIZE` cells; `trace_log` models the `println!` diagnostics on
accesses to unmodelled addresses (it records the address). -/
structure IOMemory where
  regs : RegisterFile
  sreg : SReg
  data_mem : Nat → Nat
  usart_input : List Nat
  usart_output_log : List Nat
  rtc_cnt : Nat
  trace_log : List Nat

/-- `IOMemory::new`. -/
def IOMemory.new : IOMemory where
  regs := RegisterFile.new
  sreg := SReg.new
  data_mem := fun _ => 0
  usart_input := []
  usart_output_log := []
  rtc_cnt := 0
  trace_log := []

/-- `IOMemory::_get8`: raw indexing of `data_mem`; an index at or past the
capacity is a Rust panic, modelled as `none`. -/
def IOMemory._get8 (m : IOMemory) (addr : Nat) : Option Nat :=
  if addr < DATA_MEM_SIZE then some (m.data_mem addr) else none

/-- `IOMemory::_set8`: raw write into `data_mem`, with the same bounds
behaviour as `_get8`. -/
def IOMemory._set8 (m : IOMemory) (addr val : Nat) : Option IOMemory :=
  if addr < DATA_MEM_SIZE then
    some { m with data_mem := fun a => if a = addr then val else m.data_mem a }
  else
    none

/-- `IOMemory::get_rampx`. -/
def IOMemory.get_rampx (m : IOMemory) : Option Nat :=
  m._get8 RAMPX

/-- `IOMemory::get_rampy`. -/
def IOMemory.get_rampy (m : IOMemory) : Option Nat :=
  m._get8 RAMPY

/-- `IOMemory::get_rampz`. -/
def IOMemory.get_rampz (m : IOMemory) : Option Nat :=
  m._get8 RAMPZ

/-- `IOMemory::get_eind`. -/
def IOMemory.get_eind (m : IOMemory) : Option Nat :=
  m._get8 EIND

/-- `IOMemory::set_rampx`. -/
def IOMemory.set_rampx (m : IOMemory) (val : Nat) : Option IOMemory :=
  m._set8 RAMPX val

/-- `IOMemory::set_rampy`. -/
def IOMemory.set_rampy (m : IOMemory) (val : Nat) : Option IOMemory :=
  m._set8 RAMPY val

/-- `IOMemory::set_rampz`. -/
def IOMemory.set_rampz (m : IOMemory) (val : Nat) : Option IOMemory :=
  m._set8 RAMPZ val

/-- `IOMemory::get_full_x`: RAMPX joined with the X register pair. -/
def IOMemory.get_full_x (m : IOMemory) : Option Nat := do
  let rx ← m.get_rampx
  some ((rx <<< 16) ||| m.regs.get16 regX)

/-- `IOMemory::get_full_y`. -/
def IOMemory.get_full_y (m : IOMemory) : Option Nat := do
  let ry ← m.get_rampy
  some ((ry <<< 16) ||| m.regs.get16 regY)

/-- `IOMemory::get_full_z`. -/
def IOMemory.get_full_z (m : IOMemory) : Option Nat := do
  let rz ← m.get_rampz
  some ((rz <<< 16) ||| m.regs.get16 regZ)

/-- `IOMemory::get_full_ind`: EIND joined with the Z register pair. -/
def IOMemory.get_full_ind (m : IOMemory) : Option Nat := do
  let e ← m.get_eind
  some ((e <<< 16) ||| m.regs.get16 regZ)

/-- `IOMemory::get_full_reg`: dispatch on the base register; any register
other than 26/28/30 is a panic. -/
def IOMemory.get_full_reg (m : IOMemory) (reg : Nat) : Option Nat :=
  if reg = 26 then m.get_full_x
  else if reg = 28 then m.get_full_y
  else if reg = 30 then m.get_full_z
  else none

/-- `IOMemory::set_full_x`: low 16 bits into the pair, high 8 into RAMPX. -/
def IOMemory.set_full_x (m : IOMemory) (val : Nat) : Option IOMemory :=
  let m1 := { m with regs := m.regs.set16 regX (val &&& 0xffff) }
  m1.set_rampx ((val >>> 16) &&& 0xff)

/-- `IOMemory::set_full_y`. -/
def IOMemory.set_full_y (m : IOMemory) (val : Nat) : Option IOMemory :=
  let m1 := { m with regs := m.regs.set16 regY (val &&& 0xffff) }
  m1.set_rampy ((val >>> 16) &&& 0xff)

/-- `IOMemory::set_full_z`. -/
def IOMemory.set_full_z (m : IOMemory) (val : Nat) : Option IOMemory :=
  let m1 := { m with regs := m.regs.set16 regZ (val &&& 0xffff) }
  m1.set_rampz ((val >>> 16) &&& 0xff)

/-- `IOMemory::set_full_reg`. -/
def IOMemory.set_full_reg (m : IOMemory) (reg : Nat) (val : Nat) :
    Option IOMemory :=
  if reg = 26 then m.set_full_x val
  else if reg = 28 then m.set_full_y val
  else if reg = 30 then m.set_full_z val
  else none

/-- `IOMemory::get8`: the dispatching read. The Rust match arms are modelled
in source order; `usart_input.remove(0)` on an empty FIFO is a panic
(`none`); the fall-through arm returns 0 and logs the address. -/
def IOMemory.get8 (m : IOMemory) (addr : Nat) : Option (Nat × IOMemory) :=
  if addr = 0x0051 then some (0xff, m)
  else if addr = 0x0401 then some (0, m)
  else if addr = 0x0408 then
    let cnt := (m.rtc_cnt + 1000) % 65536
    some (cnt &&& 0xff, { m with rtc_cnt := cnt })
  else if addr = 0x0409 then some (m.rtc_cnt >>> 8, m)
  else if addr = 0x08a0 then
    match m.usart_input with
    | [] => none
    | b :: rest => some (b, { m with usart_input := rest })
  else if addr = 0x08a1 then
    some (0x20 ||| (if m.usart_input.isEmpty then 0 else 0x80), m)
  else if 0x38 ≤ addr ∧ addr ≤ 0x3e then
    (m._get8 addr).map (fun v => (v, m))
  else if addr = SREG then some (m.sreg.as_u8, m)
  else if 0x2000 ≤ addr ∧ addr ≤ 0x1000000 then
    (m._get8 addr).map (fun v => (v, m))
  else
    some (0, { m with trace_log := m.trace_log ++ [addr] })

/-- `IOMemory::set8`: the dispatching write, arms in source order.
A write to the USART data register appends to the output log; the
fall-through arm only logs the address. -/
def IOMemory.set8 (m : IOMemory) (addr val : Nat) : Option IOMemory :=
  if addr = 0x08a0 then
    some { m with usart_output_log := m.usart_output_log ++ [val] }
  else if 0x38 ≤ addr ∧ addr ≤ 0x3e then m._set8 addr val
  else if addr = SREG then some { m with sreg := m.sreg.set_u8 val }
  else if 0x2000 ≤ addr ∧ addr ≤ 0x1000000 then m._set8 addr val
  else some { m with trace_log := m.trace_log ++ [addr] }

/-- `IOMemory::get16`: Rust evaluates `get8(addr + 1)` (high byte) before
`get8(addr)` (low byte), then assembles `(hi << 8) | lo`. -/
def IOMemory.get16 (m : IOMemory) (addr : Nat) : Option (Nat × IOMemory) := do
  let (hi, m1) ← m.get8 (addr + 1)
  let (lo, m2) ← m1.get8 addr
  some ((hi <<< 8) ||| lo, m2)

/-- `IOMemory::set16`: low byte at `addr` first, then high byte. -/
def IOMemory.set16 (m : IOMemory) (addr val : Nat) : Option IOMemory := do
  let m1 ← m.set8 addr (val &&& 0xff)
  m1.set8 (addr + 1) ((val >>> 8) &&& 0xff)

/-- `IOMemory::_get16`: raw little-endian pair read. -/
def IOMemory._get16 (m : IOMemory) (addr : Nat) : Option Nat := do
  let hi ← m._get8 (addr + 1)
  let lo ← m._get8 addr
  some ((hi <<< 8) ||| lo)

/-- `IOMemory::_set16`: raw little-endian pair write. -/
def IOMemory._set16 (m : IOMemory) (addr val : Nat) : Option IOMemory := do
  let m1 ← m._set8 addr (val &&& 0xff)
  m1._set8 (addr + 1) ((val >>> 8) &&& 0xff)

/-- `IOMemory::get_sp`: the 16-bit stack pointer stored at SPL/SPH. -/
def IOMemory.get_sp (m : IOMemory) : Option Nat :=
  m._get16 SPL

/-- `IOMemory::set_sp`. -/
def IOMemory.set_sp (m : IOMemory) (val : Nat) : Option IOMemory :=
  m._set16 SPL val

/-- `IOMemory::push8`: store at SP, then post-decrement SP (u16 wrap). -/
def IOMemory.push8 (m : IOMemory) (val : Nat) : Option IOMemory := do
  let old_sp ← m.get_sp
  let m1 ← m._set8 old_sp val
  m1.set_sp ((old_sp + 65535) % 65536)

/-- `IOMemory::pop8`: pre-increment SP (u16 wrap), then read at SP. -/
def IOMemory.pop8 (m : IOMemory) : Option (Nat × IOMemory) := do
  let old_sp ← m.get_sp
  let m1 ← m.set_sp ((old_sp + 1) % 65536)
  let sp ← m1.get_sp
  let v ← m1._get8 sp
  some (v, m1)

/-- `IOMemory::push16`: low byte pushed first. -/
def IOMemory.push16 (m : IOMemory) (val : Nat) : Option IOMemory := do
  let m1 ← m.push8 ((val >>> 0) &&& 0xff)
  m1.push8 ((val >>> 8) &&& 0xff)

/-- `IOMemory::pop16`. -/
def IOMemory.pop16 (m : IOMemory) : Option (Nat × IOMemory) := do
  let (b1, m1) ← m.pop8
  let (b0, m2) ← m1.pop8
  some ((b1 <<< 8) ||| b0, m2)

/-- `IOMemory::push24`: low, mid, high bytes pushed in that order. -/
def IOMemory.push24 (m : IOMemory) (val : Nat) : Option IOMemory := do
  let m1 ← m.push8 ((val >>> 0) &&& 0xff)
  let m2 ← m1.push8 ((val >>> 8) &&& 0xff)
  m2.push8 ((val >>> 16) &&& 0xff)

/-- `IOMemory::pop24`: first popped byte is the high one. -/
def IOMemory.pop24 (m : IOMemory) : Option (Nat × IOMemory) := do
  let (b2, m1) ← m.pop8
  let (b1, m2) ← m1.pop8
  let (b0, m3) ← m2.pop8
  some ((b2 <<< 16) ||| (b1 <<< 8) ||| b0, m3)

end Yaavre

namespace Yaavre

/-- Instruction operand (src/emulator.rs, `Operand`). `Imm` carries a `usize`;
`MemAccess` carries the base register index, an `isize` displacement and the
post-increment / pre-decrement flags. -/
inductive Operand where
  | Reg (num : Nat)
  | Imm (x : Nat)
  | MemAccess (reg : Nat) (ofs : Int) (postinc : Bool) (predec : Bool)
deriving Repr, DecidableEq

/-- Capacity of `prog_mem`: `vec![0; 1 << 22]`. -/
def PROG_MEM_SIZE : Nat := 1 <<< 22

/-- The emulator state (src/emulator.rs, `Emulator`). `pmem_asm` is the
`HashMap` from byte address to `(insn_bytes, opcode, operands)`; a missing
key indexed by `_step` is a panic. -/
structure Emulator where
  prog_mem : Nat → Nat
  pmem_asm : Nat → Option (List Nat × String × List Operand)
  io_mem : IOMemory
  pc : Nat
  call_stack : List (Nat × Nat × Nat)
  skip_next_insn : Bool
  insn_count : Nat

/-- `Emulator::new`. -/
def Emulator.new : Emulator where
  prog_mem := fun _ => 0
  pmem_asm := fun _ => none
  io_mem := IOMemory.new
  pc := 0
  call_stack := []
  skip_next_insn := false
  insn_count := 0

/-- `Emulator::reset`. -/
def Emulator.reset (e : Emulator) : Emulator :=
  { e with pc := 0, io_mem := IOMemory.new, call_stack := [],
           skip_next_insn := false, insn_count := 0 }

/-- `Emulator::get_reg8`. -/
def Emulator.get_reg8 (e : Emulator) (r : Nat) : Nat :=
  e.io_mem.regs.get8 r

/-- `Emulator::set_reg8`. -/
def Emulator.set_reg8 (e : Emulator) (r val : Nat) : Emulator :=
  { e with io_mem := { e.io_mem with regs := e.io_mem.regs.set8 r val } }

/-- `Emulator::get_reg16`. -/
def Emulator.get_reg16 (e : Emulator) (r : Nat) : Nat :=
  e.io_mem.regs.get16 r

/-- `Emulator::set_reg16`. -/
def Emulator.set_reg16 (e : Emulator) (r val : Nat) : Emulator :=
  { e with io_mem := { e.io_mem with regs := e.io_mem.regs.set16 r val } }

/-- Rust `u8::wrapping_add` on byte values. -/
def wrapping_add8 (a b : Nat) : Nat :=
  (a + b) % 256

/-- Rust `u8::wrapping_sub` on byte values. -/
def wrapping_sub8 (a b : Nat) : Nat :=
  (a + 256 - b % 256) % 256

/-- Rust `u16::wrapping_add`. -/
def wrapping_add16 (a b : Nat) : Nat :=
  (a + b) % 65536

/-- Rust `u16::wrapping_sub`. -/
def wrapping_sub16 (a b : Nat) : Nat :=
  (a + 65536 - b % 65536) % 65536

/-- `Emulator::set_sreg_for_bits` (logical operations). -/
def set_sreg_for_bits (sr : SReg) (r_val : Nat) : SReg :=
  let v := false
  let n := (r_val &&& 0x80) != 0
  let z := r_val == 0
  { sr with v := v, n := n, z := z, s := xor n v }

/-- `Emulator::set_sreg_for_shift` (bit shift operations). -/
def set_sreg_for_shift (sr : SReg) (val_before val_after : Nat) : SReg :=
  let c := (val_before &&& 1) != 0
  let n := (val_after &&& 0x80) != 0
  let z := val_after == 0
  let v := xor n c
  { sr with c := c, n := n, z := z, v := v, s := xor n v }

/-- `Emulator::set_sreg_for_add` (addition operations). -/
def set_sreg_for_add (sr : SReg) (rd_val rr_val r_val : Nat) : SReg :=
  let rd3 := (rd_val &&& (1 <<< 3)) != 0
  let rr3 := (rr_val &&& (1 <<< 3)) != 0
  let r3 := (r_val &&& (1 <<< 3)) != 0
  let h := (rd3 && rr3) || (rr3 && !r3) || (!r3 && rd3)
  let rd7 := (rd_val &&& (1 <<< 7)) != 0
  let rr7 := (rr_val &&& (1 <<< 7)) != 0
  let r7 := (r_val &&& (1 <<< 7)) != 0
  let v := (rd7 && rr7 && !r7) || (!rd7 && !rr7 && r7)
  let n := r7
  let z := r_val == 0
  let c := (rd7 && rr7) || (rr7 && !r7) || (!r7 && rd7)
  { sr with h := h, v := v, n := n, z := z, c := c, s := xor n v }

/-- `Emulator::set_sreg_for_sub` (subtraction operations; `use_prev` is the
with-carry Z accumulation). -/
def set_sreg_for_sub (sr : SReg) (rd_val rr_val r_val : Nat)
    (use_prev : Bool) : SReg :=
  let rd3 := (rd_val &&& (1 <<< 3)) != 0
  let rr3 := (rr_val &&& (1 <<< 3)) != 0
  let r3 := (r_val &&& (1 <<< 3)) != 0
  let h := (!rd3 && rr3) || (rr3 && r3) || (r3 && !rd3)
  let rd7 := (rd_val &&& (1 <<< 7)) != 0
  let rr7 := (rr_val &&& (1 <<< 7)) != 0
  let r7 := (r_val &&& (1 <<< 7)) != 0
  let v := (rd7 && !rr7 && !r7) || (!rd7 && rr7 && r7)
  let n := r7
  let z := if use_prev then (r_val == 0) && sr.z else r_val == 0
  let c := (!rd7 && rr7) || (rr7 && r7) || (r7 && !rd7)
  { sr with h := h, v := v, n := n, z := z, c := c, s := xor n v }

/-- `Emulator::get_carry`. -/
def Emulator.get_carry (e : Emulator) : Nat :=
  if e.io_mem.sreg.c then 1 else 0

/-- `Emulator::push_ret_addr`: record a shadow frame `(SP, pc, call_tgt)`,
then push the word-scaled return address as a 24-bit triple. -/
def Emulator.push_ret_addr (e : Emulator) (ret_addr call_tgt : Nat) :
    Option Emulator := do
  let sp ← e.io_mem.get_sp
  let e1 := { e with call_stack := e.call_stack ++ [(sp, e.pc, call_tgt)] }
  let ret_addr := ret_addr >>> 1
  let io ← e1.io_mem.push24 ret_addr
  some { e1 with io_mem := io }

/-- `Emulator::pop_ret_addr`: pop a 24-bit word, scale it back to a byte
address, and prune shadow frames from the top while the recorded SP is at or
below the current SP (the source's `while` loop over `Vec::pop`). -/
def Emulator.pop_ret_addr (e : Emulator) : Option (Nat × Emulator) := do
  let (ret_addr, io1) ← e.io_mem.pop24
  let ret_addr := ret_addr <<< 1
  let sp ← io1.get_sp
  let cs := (e.call_stack.reverse.dropWhile (fun f => decide (f.1 ≤ sp))).reverse
  some (ret_addr, { e with io_mem := io1, call_stack := cs })

/-- `Emulator::do_call`. -/
def Emulator.do_call (e : Emulator) (next_pc call_tgt : Nat) :
    Option (Emulator × Nat) := do
  let ret_addr := next_pc
  let e1 ← e.push_ret_addr ret_addr call_tgt
  some (e1, call_tgt)

/-- `Emulator::do_opcode`: dispatch on the textual opcode and operand list.
The final `next_pc` is returned alongside the mutated state; the
fall-through arm (an unimplemented opcode) is a panic. -/
def Emulator.do_opcode (e : Emulator) (opcode : String)
    (operands : List Operand) (next_pc : Nat) : Option (Emulator × Nat) :=
  match (opcode, operands) with
  | ("nop", []) => some (e, next_pc)
  | ("jmp", [Operand.Imm tgt]) => some (e, tgt)
  | ("rjmp", [Operand.Imm tgt]) => some (e, tgt)
  | ("eijmp", []) => do
    let t ← e.io_mem.get_full_ind
    some (e, t <<< 1)
  | ("call", [Operand.Imm tgt]) => e.do_call next_pc tgt
  | ("rcall", [Operand.Imm tgt]) => e.do_call next_pc tgt
  | ("eicall", []) => do
    let tgt ← e.io_mem.get_full_ind
    e.do_call next_pc (tgt <<< 1)
  | ("ret", []) => do
    let (ra, e1) ← e.pop_ret_addr
    some (e1, ra)
  | ("reti", []) => do
    let e0 := { e with io_mem := { e.io_mem with sreg := { e.io_mem.sreg with i := true } } }
    let (ra, e1) ← e0.pop_ret_addr
    some (e1, ra)
  | ("push", [Operand.Reg rr]) => do
    let val := e.get_reg8 rr
    let io ← e.io_mem.push8 val
    some ({ e with io_mem := io }, next_pc)
  | ("pop", [Operand.Reg rd]) => do
    let (val, io) ← e.io_mem.pop8
    some (({ e with io_mem := io }).set_reg8 rd val, next_pc)
  | ("breq", [Operand.Imm tgt]) =>
    some (e, if e.io_mem.sreg.z then tgt else next_pc)
  | ("brne", [Operand.Imm tgt]) =>
    some (e, if !e.io_mem.sreg.z then tgt else next_pc)
  | ("brcc", [Operand.Imm tgt]) =>
    some (e, if !e.io_mem.sreg.c then tgt else next_pc)
  | ("brcs", [Operand.Imm tgt]) =>
    some (e, if e.io_mem.sreg.c then tgt else next_pc)
  | ("brge", [Operand.Imm tgt]) =>
    some (e, if !(xor e.io_mem.sreg.n e.io_mem.sreg.v) then tgt else next_pc)
  | ("brlt", [Operand.Imm tgt]) =>
    some (e, if xor e.io_mem.sreg.n e.io_mem.sreg.v then tgt else next_pc)
  | ("brmi", [Operand.Imm tgt]) =>
    some (e, if e.io_mem.sreg.n then tgt else next_pc)
  | ("brpl", [Operand.Imm tgt]) =>
    some (e, if !e.io_mem.sreg.n then tgt else next_pc)
  | ("brtc", [Operand.Imm tgt]) =>
    some (e, if !e.io_mem.sreg.t then tgt else next_pc)
  | ("brts", [Operand.Imm tgt]) =>
    some (e, if e.io_mem.sreg.t then tgt else next_pc)
  | ("sbrc", [Operand.Reg rr, Operand.Imm bit]) =>
    let rr_val := e.get_reg8 rr
    some ({ e with skip_next_insn := (rr_val &&& (1 <<< bit)) == 0 }, next_pc)
  | ("sbrs", [Operand.Reg rr, Operand.Imm bit]) =>
    let rr_val := e.get_reg8 rr
    some ({ e with skip_next_insn := (rr_val &&& (1 <<< bit)) != 0 }, next_pc)
  | ("cpse", [Operand.Reg rd, Operand.Reg rr]) =>
    let rd_val := e.get_reg8 rd
    let rr_val := e.get_reg8 rr
    some ({ e with skip_next_insn := rd_val == rr_val }, next_pc)
  | ("clc", []) =>
    some ({ e with io_mem := { e.io_mem with sreg := { e.io_mem.sreg with c := false } } }, next_pc)
  | ("clh", []) =>
    some ({ e with io_mem := { e.io_mem with sreg := { e.io_mem.sreg with h := false } } }, next_pc)
  | ("cli", []) =>
    some ({ e with io_mem := { e.io_mem with sreg := { e.io_mem.sreg with i := false } } }, next_pc)
  | ("cln", []) =>
    some ({ e with io_mem := { e.io_mem with sreg := { e.io_mem.sreg with n := false } } }, next_pc)
  | ("cls", []) =>
    some ({ e with io_mem := { e.io_mem with sreg := { e.io_mem.sreg with s := false } } }, next_pc)
  | ("clt", []) =>
    some ({ e with io_mem := { e.io_mem with sreg := { e.io_mem.sreg with t := false } } }, next_pc)
  | ("clv", []) =>
    some ({ e with io_mem := { e.io_mem with sreg := { e.io_mem.sreg with v := false } } }, next_pc)
  | ("clz", []) =>
    some ({ e with io_mem := { e.io_mem with sreg := { e.io_mem.sreg with z := false } } }, next_pc)
  | ("sec", []) =>
    some ({ e with io_mem := { e.io_mem with sreg := { e.io_mem.sreg with c := true } } }, next_pc)
  | ("seh", []) =>
    some ({ e with io_mem := { e.io_mem with sreg := { e.io_mem.sreg with h := true } } }, next_pc)
  | ("sei", []) =>
    some ({ e with io_mem := { e.io_mem with sreg := { e.io_mem.sreg with i := true } } }, next_pc)
  | ("sen", []) =>
    some ({ e with io_mem := { e.io_mem with sreg := { e.io_mem.sreg with n := true } } }, next_pc)
  | ("ses", []) =>
    some ({ e with io_mem := { e.io_mem with sreg := { e.io_mem.sreg with s := true } } }, next_pc)
  | ("set", []) =>
    some ({ e with io_mem := { e.io_mem with sreg := { e.io_mem.sreg with t := true } } }, next_pc)
  | ("sev", []) =>
    some ({ e with io_mem := { e.io_mem with sreg := { e.io_mem.sreg with v := true } } }, next_pc)
  | ("sez", []) =>
    some ({ e with io_mem := { e.io_mem with sreg := { e.io_mem.sreg with z := true } } }, next_pc)
  | ("bst", [Operand.Reg rr, Operand.Imm bit]) =>
    let bit_val := (1 <<< bit) % 256
    let rr_val := e.get_reg8 rr
    some ({ e with io_mem := { e.io_mem with sreg := { e.io_mem.sreg with t := (rr_val &&& bit_val) != 0 } } }, next_pc)
  | ("bld", [Operand.Reg rd, Operand.Imm bit]) =>
    let bit_val := (1 <<< bit) % 256
    let val := e.get_reg8 rd
    let val := if e.io_mem.sreg.t then val ||| bit_val else val &&& (bit_val ^^^ 0xff)
    some (e.set_reg8 rd val, next_pc)
  | ("clr", [Operand.Reg rd]) => some (e.set_reg8 rd 0, next_pc)
  | ("ser", [Operand.Reg rd]) => some (e.set_reg8 rd 0xff, next_pc)
  | ("ldi", [Operand.Reg rd, Operand.Imm k]) =>
    some (e.set_reg8 rd (k % 256), next_pc)
  | ("mov", [Operand.Reg rd, Operand.Reg rr]) =>
    some (e.set_reg8 rd (e.get_reg8 rr), next_pc)
  | ("movw", [Operand.Reg rd, Operand.Reg rr]) =>
    some (e.set_reg16 rd (e.get_reg16 rr), next_pc)
  | ("andi", [Operand.Reg rd, Operand.Imm k]) =>
    let r_val := e.get_reg8 rd &&& (k % 256)
    let e1 := e.set_reg8 rd r_val
    some ({ e1 with io_mem := { e1.io_mem with sreg := set_sreg_for_bits e1.io_mem.sreg r_val } }, next_pc)
  | ("ori", [Operand.Reg rd, Operand.Imm k]) =>
    let r_val := e.get_reg8 rd ||| (k % 256)
    let e1 := e.set_reg8 rd r_val
    some ({ e1 with io_mem := { e1.io_mem with sreg := set_sreg_for_bits e1.io_mem.sreg r_val } }, next_pc)
  | ("and", [Operand.Reg rd, Operand.Reg rr]) =>
    let r_val := e.get_reg8 rd &&& e.get_reg8 rr
    let e1 := e.set_reg8 rd r_val
    some ({ e1 with io_mem := { e1.io_mem with sreg := set_sreg_for_bits e1.io_mem.sreg r_val } }, next_pc)
  | ("or", [Operand.Reg rd, Operand.Reg rr]) =>
    let r_val := e.get_reg8 rd ||| e.get_reg8 rr
    let e1 := e.set_reg8 rd r_val
    some ({ e1 with io_mem := { e1.io_mem with sreg := set_sreg_for_bits e1.io_mem.sreg r_val } }, next_pc)
  | ("eor", [Operand.Reg rd, Operand.Reg rr]) =>
    let r_val := e.get_reg8 rd ^^^ e.get_reg8 rr
    let e1 := e.set_reg8 rd r_val
    some ({ e1 with io_mem := { e1.io_mem with sreg := set_sreg_for_bits e1.io_mem.sreg r_val } }, next_pc)
  | ("lsr", [Operand.Reg rd]) =>
    let val_before := e.get_reg8 rd
    let val_after := val_before >>> 1
    let e1 := { e with io_mem := { e.io_mem with sreg := set_sreg_for_shift e.io_mem.sreg val_before val_after } }
    some (e1.set_reg8 rd val_after, next_pc)
  | ("asr", [Operand.Reg rd]) =>
    let val_before := e.get_reg8 rd
    let val_after := (val_before &&& 0x80) ||| (val_before >>> 1)
    let e1 := { e with io_mem := { e.io_mem with sreg := set_sreg_for_shift e.io_mem.sreg val_before val_after } }
    some (e1.set_reg8 rd val_after, next_pc)
  | ("ror", [Operand.Reg rd]) =>
    let val_before := e.get_reg8 rd
    let val_after := val_before >>> 1
    let val_after := if e.io_mem.sreg.c then val_after ||| 0x80 else val_after
    let e1 := { e with io_mem := { e.io_mem with sreg := set_sreg_for_shift e.io_mem.sreg val_before val_after } }
    some (e1.set_reg8 rd val_after, next_pc)
  | ("swap", [Operand.Reg rd]) =>
    let n := e.get_reg8 rd
    some (e.set_reg8 rd (((n &&& 0xf0) >>> 4) ||| ((n &&& 0x0f) <<< 4)), next_pc)
  | ("add", [Operand.Reg rd, Operand.Reg rr]) =>
    let rd_val := e.get_reg8 rd
    let rr_val := e.get_reg8 rr
    let r_val := wrapping_add8 rd_val rr_val
    let e1 := { e with io_mem := { e.io_mem with sreg := set_sreg_for_add e.io_mem.sreg rd_val rr_val r_val } }
    some (e1.set_reg8 rd r_val, next_pc)
  | ("adc", [Operand.Reg rd, Operand.Reg rr]) =>
    let rd_val := e.get_reg8 rd
    let rr_val := e.get_reg8 rr
    let r_val := wrapping_add8 (wrapping_add8 rd_val rr_val) e.get_carry
    let e1 := { e with io_mem := { e.io_mem with sreg := set_sreg_for_add e.io_mem.sreg rd_val rr_val r_val } }
    some (e1.set_reg8 rd r_val, next_pc)
  | ("cp", [Operand.Reg rd, Operand.Reg rr]) =>
    let rd_val := e.get_reg8 rd
    let rr_val := e.get_reg8 rr
    let r_val := wrapping_sub8 rd_val rr_val
    some ({ e with io_mem := { e.io_mem with sreg := set_sreg_for_sub e.io_mem.sreg rd_val rr_val r_val false } }, next_pc)
  | ("cpi", [Operand.Reg rd, Operand.Imm k]) =>
    let rd_val := e.get_reg8 rd
    let k := k % 256
    let r_val := wrapping_sub8 rd_val k
    some ({ e with io_mem := { e.io_mem with sreg := set_sreg_for_sub e.io_mem.sreg rd_val k r_val false } }, next_pc)
  | ("cpc", [Operand.Reg rd, Operand.Reg rr]) =>
    let rd_val := e.get_reg8 rd
    let rr_val := e.get_reg8 rr
    let r_val := wrapping_sub8 (wrapping_sub8 rd_val rr_val) e.get_carry
    some ({ e with io_mem := { e.io_mem with sreg := set_sreg_for_sub e.io_mem.sreg rd_val rr_val r_val true } }, next_pc)
  | ("sub", [Operand.Reg rd, Operand.Reg rr]) =>
    let rd_val := e.get_reg8 rd
    let rr_val := e.get_reg8 rr
    let r_val := wrapping_sub8 rd_val rr_val
    let e1 := { e with io_mem := { e.io_mem with sreg := set_sreg_for_sub e.io_mem.sreg rd_val rr_val r_val false } }
    some (e1.set_reg8 rd r_val, next_pc)
  | ("subi", [Operand.Reg rd, Operand.Imm k]) =>
    let rd_val := e.get_reg8 rd
    let k := k % 256
    let r_val := wrapping_sub8 rd_val k
    let e1 := { e with io_mem := { e.io_mem with sreg := set_sreg_for_sub e.io_mem.sreg rd_val k r_val false } }
    some (e1.set_reg8 rd r_val, next_pc)
  | ("sbc", [Operand.Reg rd, Operand.Reg rr]) =>
    let rd_val := e.get_reg8 rd
    let rr_val := e.get_reg8 rr
    let r_val := wrapping_sub8 (wrapping_sub8 rd_val rr_val) (if e.io_mem.sreg.c then 1 else 0)
    let e1 := { e with io_mem := { e.io_mem with sreg := set_sreg_for_sub e.io_mem.sreg rd_val rr_val r_val true } }
    some (e1.set_reg8 rd r_val, next_pc)
  | ("sbci", [Operand.Reg rd, Operand.Imm k]) =>
    let rd_val := e.get_reg8 rd
    let k := k % 256
    let r_val := wrapping_sub8 (wrapping_sub8 rd_val k) e.get_carry
    let e1 := { e with io_mem := { e.io_mem with sreg := set_sreg_for_sub e.io_mem.sreg rd_val k r_val true } }
    some (e1.set_reg8 rd r_val, next_pc)
  | ("adiw", [Operand.Reg rd, Operand.Imm k]) =>
    let rdw_val := e.get_reg16 rd
    let kw_val := k % 65536
    let r_val := wrapping_add16 rdw_val kw_val
    let e1 := e.set_reg16 rd r_val
    let v := ((rdw_val &&& 0x8000) == 0) && ((r_val &&& 0x8000) != 0)
    let n := (r_val &&& 0x8000) != 0
    let z := r_val == 0
    let c := ((r_val &&& 0x8000) == 0) && ((rdw_val &&& 0x8000) != 0)
    some ({ e1 with io_mem := { e1.io_mem with sreg := { e1.io_mem.sreg with v := v, n := n, z := z, c := c, s := xor n v } } }, next_pc)
  | ("sbiw", [Operand.Reg rd, Operand.Imm k]) =>
    let rdw_val := e.get_reg16 rd
    let kw_val := k % 65536
    let r_val := wrapping_sub16 rdw_val kw_val
    let e1 := e.set_reg16 rd r_val
    let v := ((rdw_val &&& 0x8000) != 0) && ((r_val &&& 0x8000) == 0)
    let n := (r_val &&& 0x8000) != 0
    let z := r_val == 0
    let c := ((r_val &&& 0x8000) != 0) && ((rdw_val &&& 0x8000) == 0)
    some ({ e1 with io_mem := { e1.io_mem with sreg := { e1.io_mem.sreg with v := v, n := n, z := z, c := c, s := xor n v } } }, next_pc)
  | ("inc", [Operand.Reg rd]) =>
    let rd_val := e.get_reg8 rd
    let r_val := wrapping_add8 rd_val 1
    let e1 := e.set_reg8 rd r_val
    let v := rd_val == 0x7f
    let n := (r_val &&& 0x80) != 0
    let z := r_val == 0
    some ({ e1 with io_mem := { e1.io_mem with sreg := { e1.io_mem.sreg with v := v, n := n, z := z, s := xor n v } } }, next_pc)
  | ("dec", [Operand.Reg rd]) =>
    let rd_val := e.get_reg8 rd
    let r_val := wrapping_sub8 rd_val 1
    let e1 := e.set_reg8 rd r_val
    let v := rd_val == 0x80
    let n := (r_val &&& 0x80) != 0
    let z := r_val == 0
    some ({ e1 with io_mem := { e1.io_mem with sreg := { e1.io_mem.sreg with v := v, n := n, z := z, s := xor n v } } }, next_pc)
  | ("com", [Operand.Reg rd]) =>
    let rd_val := e.get_reg8 rd
    let r_val := 0xff - rd_val
    let e1 := e.set_reg8 rd r_val
    let n := (r_val &&& 0x80) != 0
    let z := r_val == 0
    some ({ e1 with io_mem := { e1.io_mem with sreg := { e1.io_mem.sreg with v := false, n := n, z := z, c := true, s := xor n false } } }, next_pc)
  | ("neg", [Operand.Reg rd]) =>
    let rd_val := e.get_reg8 rd
    let r_val := wrapping_sub8 0 rd_val
    let e1 := e.set_reg8 rd r_val
    let h := ((r_val &&& 0x40) != 0) && ((rd_val &&& 0x40) == 0)
    let v := r_val == 0x80
    let n := (r_val &&& 0x80) != 0
    let z := r_val == 0
    let c := r_val != 0
    some ({ e1 with io_mem := { e1.io_mem with sreg := { e1.io_mem.sreg with h := h, v := v, n := n, z := z, c := c, s := xor n v } } }, next_pc)
  | ("mul", [Operand.Reg rd, Operand.Reg rr]) =>
    let rd_val := e.get_reg8 rd
    let rr_val := e.get_reg8 rr
    let r_val := rd_val * rr_val
    let e1 := e.set_reg16 0 r_val
    some ({ e1 with io_mem := { e1.io_mem with sreg := { e1.io_mem.sreg with c := (r_val &&& 0x8000) != 0, z := r_val == 0 } } }, next_pc)
  | ("in", [Operand.Reg rd, Operand.Imm port]) => do
    let (val, io) ← e.io_mem.get8 port
    some (({ e with io_mem := io }).set_reg8 rd val, next_pc)
  | ("out", [Operand.Imm port, Operand.Reg rr]) => do
    let val := e.get_reg8 rr
    let io ← e.io_mem.set8 port val
    some ({ e with io_mem := io }, next_pc)
  | ("lpm", [Operand.Reg rd, Operand.MemAccess 30 0 postinc false]) => do
    let addr := e.get_reg16 regZ
    let val ← if addr < PROG_MEM_SIZE then some (e.prog_mem addr) else none
    let e1 := e.set_reg8 rd val
    if postinc then
      some (e1.set_reg16 regZ (addr + 1), next_pc)
    else
      some (e1, next_pc)
  | ("elpm", [Operand.Reg rd, Operand.MemAccess 30 0 postinc false]) => do
    let addr ← e.io_mem.get_full_z
    let val ← if addr < PROG_MEM_SIZE then some (e.prog_mem addr) else none
    let e1 := e.set_reg8 rd val
    if postinc then do
      let io ← e1.io_mem.set_full_z (addr + 1)
      some ({ e1 with io_mem := io }, next_pc)
    else
      some (e1, next_pc)
  | ("ld", [Operand.Reg rd, Operand.MemAccess reg ofs postinc predec])
  | ("ldd", [Operand.Reg rd, Operand.MemAccess reg ofs postinc predec]) => do
    let base_addr ← e.io_mem.get_full_reg reg
    let base_addr :=
      if predec then (base_addr + 4294967295) % 4294967296 else base_addr
    let addr := (((base_addr : Int) + ofs) % (18446744073709551616 : Int)).toNat
    let (val, io1) ← e.io_mem.get8 addr
    let e1 := ({ e with io_mem := io1 }).set_reg8 rd val
    let base_addr :=
      if postinc then (base_addr + 1) % 4294967296 else base_addr
    if predec || postinc then do
      let io2 ← e1.io_mem.set_full_reg reg base_addr
      some ({ e1 with io_mem := io2 }, next_pc)
    else
      some (e1, next_pc)
  | ("st", [Operand.MemAccess reg ofs postinc predec, Operand.Reg rr])
  | ("std", [Operand.MemAccess reg ofs postinc predec, Operand.Reg rr]) => do
    let base_addr ← e.io_mem.get_full_reg reg
    let base_addr :=
      if predec then (base_addr + 4294967295) % 4294967296 else base_addr
    let addr := (((base_addr : Int) + ofs) % (18446744073709551616 : Int)).toNat
    let val := e.get_reg8 rr
    let io1 ← e.io_mem.set8 addr val
    let e1 := { e with io_mem := io1 }
    let base_addr :=
      if postinc then (base_addr + 1) % 4294967296 else base_addr
    if predec || postinc then do
      let io2 ← e1.io_mem.set_full_reg reg base_addr
      some ({ e1 with io_mem := io2 }, next_pc)
    else
      some (e1, next_pc)
  | ("lds", [Operand.Reg rd, Operand.Imm k]) => do
    let (val, io) ← e.io_mem.get8 k
    some (({ e with io_mem := io }).set_reg8 rd val, next_pc)
  | ("sts", [Operand.Imm k, Operand.Reg rr]) => do
    let val := e.get_reg8 rr
    let io ← e.io_mem.set8 k val
    some ({ e with io_mem := io }, next_pc)
  | (_, _) => none

/-- `Emulator::_step`: fetch the decoded instruction at PC (panic if the
`pmem_asm` map has no entry), compute `next_pc` from the instruction byte
length, clear a pending skip instead of dispatching, then commit PC and the
instruction counter. -/
def Emulator._step (e : Emulator) : Option Emulator := do
  let (insn_bytes, opcode, operands) ← e.pmem_asm e.pc
  let next_pc := e.pc + insn_bytes.length
  let (e1, next_pc1) ←
    if e.skip_next_insn then
      some ({ e with skip_next_insn := false }, next_pc)
    else
      e.do_opcode opcode operands next_pc
  some { e1 with pc := next_pc1, insn_count := e1.insn_count + 1 }

/-- Iterated `_step`. `Emulator::run` is `loop { self._step(); }` — an
unconditional infinite loop with no exit — so its behaviour is fully
described by the family of finite unfoldings `stepN`. -/
def Emulator.stepN (e : Emulator) : Nat → Option Emulator
  | 0 => some e
  | n + 1 => do
    let e1 ← e._step
    e1.stepN n

end Yaavre

namespace Yaavre

/-! Helper lemmas: byte masking, shifts, and the stack-pointer discipline. -/

/-- Masking with 0xff is reduction mod 256. -/
theorem and_mask8 (x : Nat) : x &&& 0xff = x % 256 := by
  have h : (0xff : Nat) = 2 ^ 8 - 1 := by rfl
  rw [h, Nat.and_pow_two_sub_one_eq_mod]

/-- Right shift by 8 is division by 256. -/
theorem shr8_eq (x : Nat) : x >>> 8 = x / 256 := by
  rw [Nat.shiftRight_eq_div_pow]

/-- Right shift by 16 is division by 65536. -/
theorem shr16_eq (x : Nat) : x >>> 16 = x / 65536 := by
  rw [Nat.shiftRight_eq_div_pow]

/-- A shifted value or-ed with a small value is their sum. -/
theorem shl_lor_eq_add : ∀ (k a b : Nat), b < 2 ^ k →
    (a <<< k) ||| b = 2 ^ k * a + b := by
  intro k
  induction k with
  | zero =>
    intro a b hb
    interval_cases b
    simp [Nat.shiftLeft_zero]
  | succ k ih =>
    intro a b hb
    have hb2 : b / 2 < 2 ^ k := by omega
    have hbit : b = Nat.bit (decide (b % 2 = 1)) (b / 2) := by
      rw [Nat.bit_val]
      rcases Nat.mod_two_eq_zero_or_one b with h | h <;> simp [h] <;> omega
    have hshl : a <<< (k + 1) = Nat.bit false (a <<< k) := by
      simp [Nat.bit_val, Nat.shiftLeft_eq]
      ring
    rw [hbit, hshl, Nat.lor_bit, ih a (b / 2) hb2, Nat.bit_val, Nat.bit_val]
    rcases Nat.mod_two_eq_zero_or_one b with h | h
    · simp [h]
      ring_nf
    · simp [h]
      ring_nf

/-- `get_sp` reads the two bytes at SPL/SPH. -/
theorem get_sp_eq (m : IOMemory) :
    m.get_sp = some ((m.data_mem SPH <<< 8) ||| m.data_mem SPL) := by
  rfl

/-- `get_sp` returns `sp` when the SPL/SPH bytes hold its byte split. -/
theorem get_sp_val (m : IOMemory) (sp : Nat) (h1 : m.data_mem SPL = sp % 256)
    (h2 : m.data_mem SPH = sp / 256) :
    m.get_sp = some sp := by
  rw [get_sp_eq, h1, h2]
  have h4 : sp % 256 < 2 ^ 8 := by omega
  rw [shl_lor_eq_add 8 (sp / 256) (sp % 256) h4]
  congr 1
  omega

/-- `set_sp` writes the byte split of its argument at SPL/SPH. -/
theorem set_sp_eq (m : IOMemory) (v : Nat) :
    m.set_sp v = some { m with data_mem := (fun a =>
      if a = SPH then ((v >>> 8) &&& 0xff)
      else if a = SPL then (v &&& 0xff)
      else m.data_mem a) } := by
  rfl

/-- Effect of `push8` on the byte store, described pointwise: the SP bytes
now hold `sp - 1`, the byte at the old SP holds the pushed value (when SP is
outside the SPL/SPH cells), and every other cell is untouched. -/
theorem push8_ptwise (m : IOMemory) (sp val : Nat)
    (h1 : m.data_mem SPL = sp % 256) (h2 : m.data_mem SPH = sp / 256)
    (h3 : sp < 65536) (h4 : 1 ≤ sp) :
    ∃ m', m.push8 val = some m' ∧
      m'.data_mem SPL = (sp - 1) % 256 ∧
      m'.data_mem SPH = (sp - 1) / 256 ∧
      (SPH < sp → m'.data_mem sp = val) ∧
      (∀ a, a ≠ SPL → a ≠ SPH → a ≠ sp → m'.data_mem a = m.data_mem a) := by
  have hsp : m.get_sp = some sp := get_sp_val m sp h1 h2
  have hlt : sp < DATA_MEM_SIZE := by
    have hd : DATA_MEM_SIZE = 4194304 := by rfl
    omega
  have hwrap : (sp + 65535) % 65536 = sp - 1 := by omega
  refine ⟨{ m with data_mem := (fun a =>
      if a = SPH then (((sp - 1) >>> 8) &&& 0xff)
      else if a = SPL then ((sp - 1) &&& 0xff)
      else if a = sp then val
      else m.data_mem a) }, ?_, ?_, ?_, ?_, ?_⟩
  · simp only [IOMemory.push8, hsp, Option.bind_eq_bind, Option.some_bind]
    rw [IOMemory._set8, if_pos hlt]
    simp only [Option.some_bind]
    rw [hwrap, set_sp_eq]
  · have e1 : SPL ≠ SPH := by simp [SPL, SPH]
    simp [e1, and_mask8]
  · simp [and_mask8, shr8_eq]
    omega
  · intro h
    have e1 : sp ≠ SPH := by omega
    have e2 : sp ≠ SPL := by simp [SPL, SPH] at h ⊢; omega
    simp [e1, e2]
  · intro a ha1 ha2 ha3
    simp [ha1, ha2, ha3]

/-- Effect of `pop8` when the incremented SP does not collide with the
SPL/SPH cells: the returned byte is the cell at `sp + 1` and the SP bytes now
hold `sp + 1`. -/
theorem pop8_ptwise (m : IOMemory) (sp : Nat)
    (h1 : m.data_mem SPL = sp % 256) (h2 : m.data_mem SPH = sp / 256)
    (h4 : sp + 1 < 65536) (h5 : SPH < sp + 1) :
    ∃ m', m.pop8 = some (m.data_mem (sp + 1), m') ∧
      m'.data_mem SPL = (sp + 1) % 256 ∧
      m'.data_mem SPH = (sp + 1) / 256 ∧
      (∀ a, a ≠ SPL → a ≠ SPH → m'.data_mem a = m.data_mem a) := by
  have hsp : m.get_sp = some sp := get_sp_val m sp h1 h2
  have hwrap : (sp + 1) % 65536 = sp + 1 := by omega
  have e1 : sp + 1 ≠ SPH := by omega
  have e2 : sp + 1 ≠ SPL := by simp [SPL, SPH] at h5 ⊢; omega
  refine ⟨{ m with data_mem := (fun a =>
      if a = SPH then (((sp + 1) >>> 8) &&& 0xff)
      else if a = SPL then ((sp + 1) &&& 0xff)
      else m.data_mem a) }, ?_, ?_, ?_, ?_⟩
  · simp only [IOMemory.pop8, hsp, Option.bind_eq_bind, Option.some_bind]
    rw [hwrap, set_sp_eq]
    simp only [Option.some_bind]
    have hsp2 : IOMemory.get_sp { m with data_mem := (fun a =>
        if a = SPH then (((sp + 1) >>> 8) &&& 0xff)
        else if a = SPL then ((sp + 1) &&& 0xff)
        else m.data_mem a) } = some (sp + 1) := by
      apply get_sp_val
      · have e3 : SPL ≠ SPH := by simp [SPL, SPH]
        simp [e3, and_mask8]
      · simp [and_mask8, shr8_eq]
        omega
    rw [hsp2]
    simp only [Option.some_bind]
    have hlt : sp + 1 < DATA_MEM_SIZE := by
      have hd : DATA_MEM_SIZE = 4194304 := by rfl
      omega
    rw [IOMemory._get8]
    simp [hlt, e1, e2]
  · have e3 : SPL ≠ SPH := by simp [SPL, SPH]
    simp [e3, and_mask8]
  · simp [and_mask8, shr8_eq]
    omega
  · intro a ha1 ha2
    simp [ha1, ha2]

/-- `pop8` always succeeds when the SP bytes hold a byte split, with the SP
advancing by one modulo 2^16. -/
theorem pop8_succ (m : IOMemory) (sp : Nat)
    (h1 : m.data_mem SPL = sp % 256) (h2 : m.data_mem SPH = sp / 256) :
    ∃ v m', m.pop8 = some (v, m') ∧
      m'.data_mem SPL = ((sp + 1) % 65536) % 256 ∧
      m'.data_mem SPH = ((sp + 1) % 65536) / 256 := by
  have hsp : m.get_sp = some sp := get_sp_val m sp h1 h2
  refine ⟨(fun a =>
      if a = SPH then ((((sp + 1) % 65536) >>> 8) &&& 0xff)
      else if a = SPL then (((sp + 1) % 65536) &&& 0xff)
      else m.data_mem a) ((sp + 1) % 65536), { m with data_mem := (fun a =>
      if a = SPH then ((((sp + 1) % 65536) >>> 8) &&& 0xff)
      else if a = SPL then (((sp + 1) % 65536) &&& 0xff)
      else m.data_mem a) }, ?_, ?_, ?_⟩
  · simp only [IOMemory.pop8, hsp, Option.bind_eq_bind, Option.some_bind]
    rw [set_sp_eq]
    simp only [Option.some_bind]
    have hsp2 : IOMemory.get_sp { m with data_mem := (fun a =>
        if a = SPH then ((((sp + 1) % 65536) >>> 8) &&& 0xff)
        else if a = SPL then (((sp + 1) % 65536) &&& 0xff)
        else m.data_mem a) } = some ((sp + 1) % 65536) := by
      apply get_sp_val
      · have e3 : SPL ≠ SPH := by simp [SPL, SPH]
        simp [e3, and_mask8]
      · simp [and_mask8, shr8_eq]
        omega
    rw [hsp2]
    simp only [Option.some_bind]
    have hlt : (sp + 1) % 65536 < DATA_MEM_SIZE := by
      have hd : DATA_MEM_SIZE = 4194304 := by rfl
      omega
    rw [IOMemory._get8]
    simp [hlt]
  · have e3 : SPL ≠ SPH := by simp [SPL, SPH]
    simp [e3, and_mask8]
  · simp [and_mask8, shr8_eq]
    omega

/-- Reassembling the three bytes of a 24-bit word. -/
theorem recompose24 (w : Nat) (hw : w < 16777216) :
    ((((w >>> 16) &&& 0xff) <<< 16) ||| ((((w >>> 8) &&& 0xff)) <<< 8) |||
      ((w >>> 0) &&& 0xff)) = w := by
  rw [Nat.lor_assoc, Nat.shiftRight_zero, and_mask8, and_mask8, and_mask8,
    shr8_eq, shr16_eq]
  have hb1 : w % 256 < 2 ^ 8 := by omega
  rw [shl_lor_eq_add 8 (w / 256 % 256) (w % 256) hb1]
  have hb2 : 2 ^ 8 * (w / 256 % 256) + w % 256 < 2 ^ 16 := by omega
  rw [shl_lor_eq_add 16 (w / 65536 % 256) _ hb2]
  omega

end Yaavre

namespace Yaavre

/-- Effect of `push24` on the store: SP drops by three and the three cells
above the new SP hold the little-endian byte split of the pushed word. -/
theorem push24_spec (m : IOMemory) (sp0 w : Nat)
    (h1 : m.data_mem SPL = sp0 % 256) (h2 : m.data_mem SPH = sp0 / 256)
    (h3 : sp0 < 65536) (h4 : 0x41 ≤ sp0) :
    ∃ m3, m.push24 w = some m3 ∧
      m3.data_mem SPL = (sp0 - 3) % 256 ∧ m3.data_mem SPH = (sp0 - 3) / 256 ∧
      m3.data_mem (sp0 - 2) = (w >>> 16) &&& 0xff ∧
      m3.data_mem (sp0 - 1) = (w >>> 8) &&& 0xff ∧
      m3.data_mem sp0 = (w >>> 0) &&& 0xff := by
  have hSPL : SPL = 0x3d := rfl
  have hSPH : SPH = 0x3e := rfl
  obtain ⟨m1, hp1, hm1L, hm1H, hm1v, hm1f⟩ :=
    push8_ptwise m sp0 ((w >>> 0) &&& 0xff) h1 h2 h3 (by omega)
  obtain ⟨m2, hp2, hm2L, hm2H, hm2v, hm2f⟩ :=
    push8_ptwise m1 (sp0 - 1) ((w >>> 8) &&& 0xff) (by rw [hm1L]) (by rw [hm1H])
      (by omega) (by omega)
  obtain ⟨m3, hp3, hm3L, hm3H, hm3v, hm3f⟩ :=
    push8_ptwise m2 (sp0 - 2) ((w >>> 16) &&& 0xff) (by rw [hm2L]; omega)
      (by rw [hm2H]; omega) (by omega) (by omega)
  refine ⟨m3, ?_, by rw [hm3L]; omega, by rw [hm3H]; omega, ?_, ?_, ?_⟩
  · simp only [IOMemory.push24, Option.bind_eq_bind, hp1, Option.some_bind,
      hp2, hp3]
  · exact hm3v (by rw [hSPH]; omega)
  · rw [hm3f (sp0 - 1) (by rw [hSPL]; omega) (by rw [hSPH]; omega) (by omega)]
    exact hm2v (by rw [hSPH]; omega)
  · rw [hm3f sp0 (by rw [hSPL]; omega) (by rw [hSPH]; omega) (by omega)]
    rw [hm2f sp0 (by rw [hSPL]; omega) (by rw [hSPH]; omega) (by omega)]
    exact hm1v (by rw [hSPH]; omega)

/-- `pop24` recovers the pushed word from an untouched byte split. -/
theorem pop24_spec (m : IOMemory) (sp0 w : Nat)
    (h1 : m.data_mem SPL = (sp0 - 3) % 256)
    (h2 : m.data_mem SPH = (sp0 - 3) / 256)
    (hb2 : m.data_mem (sp0 - 2) = (w >>> 16) &&& 0xff)
    (hb1 : m.data_mem (sp0 - 1) = (w >>> 8) &&& 0xff)
    (hb0 : m.data_mem sp0 = (w >>> 0) &&& 0xff)
    (h3 : sp0 < 65536) (h4 : 0x41 ≤ sp0) (hw : w < 16777216) :
    ∃ m6, m.pop24 = some (w, m6) ∧
      m6.data_mem SPL = sp0 % 256 ∧ m6.data_mem SPH = sp0 / 256 := by
  have hSPL : SPL = 0x3d := rfl
  have hSPH : SPH = 0x3e := rfl
  obtain ⟨m4, hq1, hm4L, hm4H, hm4f⟩ :=
    pop8_ptwise m (sp0 - 3) h1 h2 (by omega) (by rw [hSPH]; omega)
  obtain ⟨m5, hq2, hm5L, hm5H, hm5f⟩ :=
    pop8_ptwise m4 (sp0 - 2) (by rw [hm4L]; omega)
      (by rw [hm4H]; omega) (by omega) (by rw [hSPH]; omega)
  obtain ⟨m6, hq3, hm6L, hm6H, hm6f⟩ :=
    pop8_ptwise m5 (sp0 - 1) (by rw [hm5L]; omega)
      (by rw [hm5H]; omega) (by omega) (by rw [hSPH]; omega)
  have hv1 : m.data_mem (sp0 - 3 + 1) = (w >>> 16) &&& 0xff := by
    rw [show sp0 - 3 + 1 = sp0 - 2 from by omega]
    exact hb2
  have hv2 : m4.data_mem (sp0 - 2 + 1) = (w >>> 8) &&& 0xff := by
    rw [show sp0 - 2 + 1 = sp0 - 1 from by omega]
    rw [hm4f (sp0 - 1) (by rw [hSPL]; omega) (by rw [hSPH]; omega)]
    exact hb1
  have hv3 : m5.data_mem (sp0 - 1 + 1) = (w >>> 0) &&& 0xff := by
    rw [show sp0 - 1 + 1 = sp0 from by omega]
    rw [hm5f sp0 (by rw [hSPL]; omega) (by rw [hSPH]; omega)]
    rw [hm4f sp0 (by rw [hSPL]; omega) (by rw [hSPH]; omega)]
    exact hb0
  refine ⟨m6, ?_, by rw [hm6L]; omega, by rw [hm6H]; omega⟩
  simp only [IOMemory.pop24, Option.bind_eq_bind, hq1, Option.some_bind, hq2,
    hq3, hv1, hv2, hv3]
  rw [recompose24 w hw]

/-- `pop_ret_addr` on a state whose stack bytes hold the split of `w`:
returns the doubled word and prunes the shadow stack against the new SP. -/
theorem pop_ret_addr_spec (ex : Emulator) (sp0 w : Nat)
    (h1 : ex.io_mem.data_mem SPL = (sp0 - 3) % 256)
    (h2 : ex.io_mem.data_mem SPH = (sp0 - 3) / 256)
    (hb2 : ex.io_mem.data_mem (sp0 - 2) = (w >>> 16) &&& 0xff)
    (hb1 : ex.io_mem.data_mem (sp0 - 1) = (w >>> 8) &&& 0xff)
    (hb0 : ex.io_mem.data_mem sp0 = (w >>> 0) &&& 0xff)
    (h3 : sp0 < 65536) (h4 : 0x41 ≤ sp0) (hw : w < 16777216) :
    ∃ io6 cs6, ex.pop_ret_addr = some (w <<< 1, { ex with io_mem := io6, call_stack := cs6 }) ∧
      cs6 = (ex.call_stack.reverse.dropWhile (fun f => decide (f.1 ≤ sp0))).reverse ∧
      io6.data_mem SPL = sp0 % 256 ∧ io6.data_mem SPH = sp0 / 256 := by
  obtain ⟨m6, hpop, hm6L, hm6H⟩ :=
    pop24_spec ex.io_mem sp0 w h1 h2 hb2 hb1 hb0 h3 h4 hw
  have hgsp : m6.get_sp = some sp0 := get_sp_val _ _ hm6L hm6H
  refine ⟨m6, _, ?_, rfl, hm6L, hm6H⟩
  simp only [Emulator.pop_ret_addr, Option.bind_eq_bind, hpop,
    Option.some_bind, hgsp]

/-- Every element surviving `dropWhile (· ≤ sp)` on a list that is sorted
nondecreasingly in its first component exceeds `sp`. -/
theorem dropWhile_all_gt (sp : Nat) : ∀ (l : List (Nat × Nat × Nat)),
    l.Pairwise (fun f g => f.1 ≤ g.1) →
    ∀ x ∈ l.dropWhile (fun f => decide (f.1 ≤ sp)), sp < x.1 := by
  intro l
  induction l with
  | nil =>
    intro _ x hx
    simp [List.dropWhile] at hx
  | cons f rest ih =>
    intro hp x hx
    rw [List.dropWhile_cons] at hx
    rcases hle : decide (f.1 ≤ sp) with _ | _
    · rw [hle] at hx
      simp only [Bool.false_eq_true, if_false, List.mem_cons] at hx
      simp only [decide_eq_false_iff_not, Nat.not_le] at hle
      rcases hx with rfl | hx
      · omega
      · have hfx := (List.pairwise_cons.mp hp).1 x hx
        omega
    · rw [hle] at hx
      simp only [if_true] at hx
      exact ih (List.pairwise_cons.mp hp).2 x hx

/-- `pop24` always succeeds when the SP bytes hold a byte split; the SP ends
three higher, modulo 2^16. -/
theorem pop24_succ (m : IOMemory) (sp : Nat)
    (h1 : m.data_mem SPL = sp % 256) (h2 : m.data_mem SPH = sp / 256) :
    ∃ ra m', m.pop24 = some (ra, m') ∧
      ∃ sp', m'.data_mem SPL = sp' % 256 ∧ m'.data_mem SPH = sp' / 256 ∧
        sp' < 65536 := by
  obtain ⟨v1, m1, hq1, hm1L, hm1H⟩ := pop8_succ m sp h1 h2
  obtain ⟨v2, m2, hq2, hm2L, hm2H⟩ := pop8_succ m1 ((sp + 1) % 65536) hm1L hm1H
  obtain ⟨v3, m3, hq3, hm3L, hm3H⟩ :=
    pop8_succ m2 (((sp + 1) % 65536 + 1) % 65536) hm2L hm2H
  refine ⟨(v1 <<< 16) ||| (v2 <<< 8) ||| v3, m3, ?_,
    ⟨(((sp + 1) % 65536 + 1) % 65536 + 1) % 65536, hm3L, hm3H, by omega⟩⟩
  simp only [IOMemory.pop24, Option.bind_eq_bind, hq1, Option.some_bind, hq2,
    hq3]

end Yaavre

namespace Yaavre

/-! Concrete machine states and the one spec-side definition used by the
claims below. -/

/-- Modelled from the spec: the spec's words for `read16` say the 16-bit read
at address X is a little-endian pair of `read8` calls that consumes X before
X + 1. This definition follows those words and is the comparison point for
the source's `get16` (which consumes X + 1 first). -/
def IOMemory.get16_spec_order (m : IOMemory) (addr : Nat) :
    Option (Nat × IOMemory) := do
  let (lo, m1) ← m.get8 addr
  let (hi, m2) ← m1.get8 (addr + 1)
  some ((hi <<< 8) ||| lo, m2)

/-- Decoded one-instruction program `rjmp .-2` at address 0, from reset
(so I = 0): the decoder resolves the operand to `next_pc + (-2) = 0`. -/
def rjmpEmu : Emulator :=
  { Emulator.new with pmem_asm := fun a =>
      if a = 0 then some ([0xfe, 0xcf], "rjmp", [Operand.Imm 0]) else none }

/-- Decoded program with a four-byte `jmp` at address 0 and the skip flag
pending. -/
def skipEmu : Emulator :=
  { Emulator.new with skip_next_insn := true, pmem_asm := fun a =>
      if a = 0 then some ([0x0c, 0x94, 0x32, 0x00], "jmp", [Operand.Imm 100])
      else none }

/-- Reset state with SP = 0x50, for the C3 witness. -/
def c3Emu : Emulator :=
  { Emulator.new with io_mem := { IOMemory.new with data_mem := fun a => if a = 0x3d then 0x50 else 0 } }

/-- Reset state with shadow stack `[(5,_,_), (100,_,_)]` and SP = 47, for
the C7 counterexample. -/
def c7Emu : Emulator :=
  { Emulator.new with call_stack := [(5, 0, 0), (100, 0, 0)], io_mem := { IOMemory.new with data_mem := fun a => if a = 0x3d then 47 else 0 } }

/-- Helper: one step of the rjmp-to-self program only bumps the instruction
counter. -/
theorem rjmp_step (c : Nat) :
    ({ rjmpEmu with insn_count := c } : Emulator)._step =
      some { rjmpEmu with insn_count := c + 1 } := by
  rfl

/-- Helper: any number of steps of the rjmp-to-self program only bumps the
instruction counter. -/
theorem rjmp_stepN : ∀ (n c : Nat),
    ({ rjmpEmu with insn_count := c } : Emulator).stepN n =
      some { rjmpEmu with insn_count := c + n } := by
  intro n
  induction n with
  | zero =>
    intro c
    rfl
  | succ k ih =>
    intro c
    simp only [Emulator.stepN]
    rw [rjmp_step]
    simp only [Option.bind_eq_bind, Option.some_bind]
    rw [ih (c + 1)]
    have hc : c + 1 + k = c + (k + 1) := by omega
    rw [hc]

/-- Helper: bit 7 test as an arithmetic condition. -/
theorem and_bit7 (x : Nat) :
    ((x &&& (1 <<< 7)) != 0) = decide (x / 128 % 2 = 1) := by
  have h : (1 <<< 7 : Nat) = 2 ^ 7 := by rfl
  rw [h, Nat.and_two_pow, Nat.testBit_to_div_mod]
  cases hd : decide (x / 2 ^ 7 % 2 = 1) with
  | false => simp at hd ⊢
  | true => simp at hd ⊢

/-- Helper: the C flag computed by `set_sreg_for_sub` on a wrapped
difference is exactly the unsigned borrow condition. -/
theorem sub_c_iff (sr : SReg) (u v : Nat) (hu : u < 256) (hv : v < 256) :
    ((set_sreg_for_sub sr u v (wrapping_sub8 u v) false).c = true ↔ u < v) := by
  have hc : (set_sreg_for_sub sr u v (wrapping_sub8 u v) false).c =
      ((!((u &&& (1 <<< 7)) != 0) && ((v &&& (1 <<< 7)) != 0))
        || (((v &&& (1 <<< 7)) != 0) && ((wrapping_sub8 u v &&& (1 <<< 7)) != 0))
        || (((wrapping_sub8 u v &&& (1 <<< 7)) != 0) && !((u &&& (1 <<< 7)) != 0))) := rfl
  rw [hc, and_bit7, and_bit7, and_bit7]
  simp only [wrapping_sub8, Bool.or_eq_true, Bool.and_eq_true,
    Bool.not_eq_true', decide_eq_true_eq, decide_eq_false_iff_not]
  omega

end Yaavre

namespace Yaavre

/-- C1 (counterexample): in the reset machine with I = 0, executing the
one-instruction program `rjmp .-2` leaves the state identical except for the
instruction counter — PC stays 0 and nothing else changes (the machine has no
halted flag to set), and after 1000 steps the machine is still in the same
loop at PC 0, so `run`, which repeats `_step` unconditionally, never stops. -/
theorem C1_cex :
    rjmpEmu._step = some { rjmpEmu with insn_count := 1 } ∧
    rjmpEmu.stepN 1000 = some { rjmpEmu with insn_count := 1000 } ∧
    ({ rjmpEmu with insn_count := 1000 } : Emulator).pc = 0 ∧
    ({ rjmpEmu with insn_count := 1000 } : Emulator).skip_next_insn = false := by
  refine ⟨?_, ?_, rfl, rfl⟩
  · have h := rjmp_step 0
    simpa using h
  · have h := rjmp_stepN 1000 0
    simpa using h

/-- C1 (amended): executing `rjmp .-2` sets `next_pc` to the jump target,
which is its own address, so on the program consisting only of `RJMP -2`
with I = 0 the machine stays at PC 0 forever: after any number of steps the
I/O memory, shadow call stack and skip flag are unchanged and only the
instruction counter has advanced. The emulator has no halted flag and `run`
has no exit condition, so it never stops. -/
theorem C1_rjmp_loops_forever (n : Nat) :
    ∃ en, rjmpEmu.stepN n = some en ∧ en.pc = 0 ∧
      en.io_mem = rjmpEmu.io_mem ∧ en.call_stack = rjmpEmu.call_stack ∧
      en.skip_next_insn = false ∧ en.insn_count = n := by
  refine ⟨{ rjmpEmu with insn_count := n }, ?_, rfl, rfl, rfl, rfl, rfl⟩
  have h := rjmp_stepN n 0
  simpa using h

/-- C2 (counterexample): address 0x400000 lies in the claimed SRAM region
0x2000..0xFFFFFF and is routed by `get8`/`set8` into the backing store, but
the store holds only 2^22 bytes, so both accesses index out of bounds
(a panic, modelled as `none`). -/
theorem C2_cex :
    ((0x2000 : Nat) ≤ 0x400000 ∧ (0x400000 : Nat) ≤ 0xffffff) ∧
    IOMemory.new.get8 0x400000 = none ∧
    IOMemory.new.set8 0x400000 7 = none := by
  refine ⟨by decide, rfl, rfl⟩

/-- C2 (amended): for every address in 0x2000..0x3FFFFF — the part of the
SRAM region that lies inside the 2^22-byte backing store — `get8` returns the
plain byte cell without any side effect and `set8` updates exactly that
cell. -/
theorem C2_sram_plain_bytes (m : IOMemory) (addr v : Nat)
    (hlo : 0x2000 ≤ addr) (hhi : addr < 0x400000) :
    m.get8 addr = some (m.data_mem addr, m) ∧
    m.set8 addr v = some { m with data_mem := fun a => if a = addr then v else m.data_mem a } := by
  have h1 : addr ≠ 0x0051 := by omega
  have h2 : addr ≠ 0x0401 := by omega
  have h3 : addr ≠ 0x0408 := by omega
  have h4 : addr ≠ 0x0409 := by omega
  have h5 : addr ≠ 0x08a0 := by omega
  have h6 : addr ≠ 0x08a1 := by omega
  have h7 : ¬(0x38 ≤ addr ∧ addr ≤ 0x3e) := by omega
  have h8 : addr ≠ SREG := by
    show addr ≠ 0x3f
    omega
  have h9 : 0x2000 ≤ addr ∧ addr ≤ 0x1000000 := by omega
  have h10 : addr < DATA_MEM_SIZE := by
    show addr < 4194304
    omega
  constructor
  · simp [IOMemory.get8, h1, h2, h3, h4, h5, h6, h7, h8, h9,
      IOMemory._get8, h10]
  · simp [IOMemory.set8, h5, h7, h8, h9, IOMemory._set8, h10]

/-- C2 witness: the amended theorem applied at address 0x2000. -/
theorem C2_witness :
    IOMemory.new.get8 0x2000 = some (IOMemory.new.data_mem 0x2000, IOMemory.new) ∧
    IOMemory.new.set8 0x2000 7 = some { IOMemory.new with data_mem := fun a => if a = 0x2000 then 7 else IOMemory.new.data_mem a } :=
  C2_sram_plain_bytes IOMemory.new 0x2000 7 (by decide) (by decide)

/-- C3: for every even return address `a` that fits in 22 bits, pushed by a
call in a state whose 16-bit SP is well formed and at least 0x41 (so the
stacked triple does not collide with the SPL/SPH cells), the immediately
following `ret` — and likewise `reti` — pops the 24-bit word, doubles it and
assigns exactly `a` to `next_pc`. -/
theorem C3_ret_matches_call (e : Emulator) (a tgt npc : Nat)
    (ha2 : a % 2 = 0) (ha : a < 4194304)
    (hbL : e.io_mem.data_mem SPL < 256) (hbH : e.io_mem.data_mem SPH < 256)
    (hsp : 0x41 ≤ 256 * e.io_mem.data_mem SPH + e.io_mem.data_mem SPL) :
    ∃ e1 e2 e3, e.push_ret_addr a tgt = some e1 ∧
      e1.do_opcode ("ret") [] npc = some (e2, a) ∧
      e1.do_opcode ("reti") [] npc = some (e3, a) := by
  set sp0 := 256 * e.io_mem.data_mem SPH + e.io_mem.data_mem SPL with hsp0
  have hL : e.io_mem.data_mem SPL = sp0 % 256 := by omega
  have hH : e.io_mem.data_mem SPH = sp0 / 256 := by omega
  have h3 : sp0 < 65536 := by omega
  have hdiv : a >>> 1 = a / 2 := by
    rw [Nat.shiftRight_eq_div_pow]
  have hw : a >>> 1 < 16777216 := by omega
  have hshl : (a >>> 1) <<< 1 = a := by
    rw [Nat.shiftLeft_eq, hdiv]
    omega
  obtain ⟨m3, hpush, hm3L, hm3H, hb2, hb1, hb0⟩ :=
    push24_spec e.io_mem sp0 (a >>> 1) hL hH h3 hsp
  have hgsp : e.io_mem.get_sp = some sp0 := get_sp_val _ _ hL hH
  have hpra : e.push_ret_addr a tgt =
      some { e with call_stack := e.call_stack ++ [(sp0, e.pc, tgt)],
                    io_mem := m3 } := by
    simp only [Emulator.push_ret_addr, Option.bind_eq_bind, hgsp,
      Option.some_bind]
    show (e.io_mem.push24 (a >>> 1)).bind _ = _
    rw [hpush]
    rfl
  obtain ⟨io6, cs6, hpr, _, _, _⟩ :=
    pop_ret_addr_spec
      { e with call_stack := e.call_stack ++ [(sp0, e.pc, tgt)], io_mem := m3 }
      sp0 (a >>> 1) hm3L hm3H hb2 hb1 hb0 h3 hsp hw
  obtain ⟨io6i, cs6i, hpri, _, _, _⟩ :=
    pop_ret_addr_spec
      { e with call_stack := e.call_stack ++ [(sp0, e.pc, tgt)],
               io_mem := { m3 with sreg := { m3.sreg with i := true } } }
      sp0 (a >>> 1) hm3L hm3H hb2 hb1 hb0 h3 hsp hw
  have hret_red : ∀ (ex : Emulator) (np : Nat), ex.do_opcode ("ret") [] np =
      (ex.pop_ret_addr).bind (fun p => some (p.2, p.1)) := fun ex np => rfl
  have hreti_red : ∀ (ex : Emulator) (np : Nat), ex.do_opcode ("reti") [] np =
      (({ ex with io_mem := { ex.io_mem with sreg := { ex.io_mem.sreg with i := true } } } : Emulator).pop_ret_addr).bind
        (fun p => some (p.2, p.1)) := fun ex np => rfl
  refine ⟨{ e with call_stack := e.call_stack ++ [(sp0, e.pc, tgt)], io_mem := m3 },
      { e with io_mem := io6, call_stack := cs6 },
      { e with io_mem := io6i, call_stack := cs6i }, hpra, ?_, ?_⟩
  · rw [hret_red, hpr]
    simp only [Option.some_bind]
    rw [hshl]
  · rw [hreti_red, hpri]
    simp only [Option.some_bind]
    rw [hshl]

/-- C3 witness: the theorem applied with return address 0x1234 at SP 0x50. -/
theorem C3_witness :
    ∃ e1 e2 e3, c3Emu.push_ret_addr 0x1234 0x10 = some e1 ∧
      e1.do_opcode ("ret") [] 0 = some (e2, 0x1234) ∧
      e1.do_opcode ("reti") [] 0 = some (e3, 0x1234) :=
  C3_ret_matches_call c3Emu 0x1234 0x10 0 (by decide) (by decide) (by decide)
    (by decide) (by decide)

/-- C4 (counterexample): the 16-bit read at the RTC address 0x0408 returns
232 — the order of the two byte reads is `get8(0x0409)` first, then
`get8(0x0408)` — while reading in the claimed order (X before X + 1) would
return 1000. -/
theorem C4_cex :
    (IOMemory.new.get16 0x0408).map Prod.fst = some 232 ∧
    (IOMemory.new.get16_spec_order 0x0408).map Prod.fst = some 1000 ∧
    (232 : Nat) ≠ 1000 := by
  refine ⟨rfl, rfl, by decide⟩

/-- C4 (amended): every successful 16-bit read at X decomposes as the 8-bit
read of X + 1 performed first, followed by the 8-bit read of X in the
resulting state, with the byte read at X the low byte of the result and the
byte read at X + 1 the high byte. -/
theorem C4_read16_order (m : IOMemory) (addr v : Nat) (m' : IOMemory)
    (h : m.get16 addr = some (v, m')) :
    ∃ hi m1 lo, m.get8 (addr + 1) = some (hi, m1) ∧
      m1.get8 addr = some (lo, m') ∧ v = (hi <<< 8) ||| lo := by
  simp only [IOMemory.get16, Option.bind_eq_bind, Option.bind_eq_some] at h
  obtain ⟨⟨hi, m1⟩, h1, h2⟩ := h
  obtain ⟨⟨lo, m2⟩, h3, h4⟩ := h2
  injection h4 with h5
  injection h5 with h6 h7
  have h7' : m2 = m' := h7
  have h6' : hi <<< 8 ||| lo = v := h6
  have h3' : m1.get8 addr = some (lo, m2) := h3
  exact ⟨hi, m1, lo, h1, by rw [← h7']; exact h3', h6'.symm⟩

/-- C4 witness: the amended theorem applied to a plain SRAM read. -/
theorem C4_witness :
    ∃ hi m1 lo, IOMemory.new.get8 (0x2000 + 1) = some (hi, m1) ∧
      m1.get8 0x2000 = some (lo, IOMemory.new) ∧ (0 : Nat) = (hi <<< 8) ||| lo :=
  C4_read16_order IOMemory.new 0x2000 0 IOMemory.new rfl

/-- C5 (code evaluation at the failing input): `ld r0, -X` with RAMPX = 0 and
X = 0 decrements the 24-bit base with 32-bit wrap-around and accesses address
0xFFFFFFFF — the unmodelled-address fall-through arm, which logs the address
and returns 0 — instead of the 24-bit-wrapped address 0xFFFFFF; the value
written back into RAMPX:X is truncated to 0xFFFFFF. -/
theorem C5_predec_wraps_32bit :
    ∃ e', Emulator.new.do_opcode ("ld")
        [Operand.Reg 0, Operand.MemAccess 26 0 false true] 2 = some (e', 2) ∧
      e'.io_mem.trace_log = [4294967295] ∧
      e'.io_mem.get_full_x = some 0xffffff ∧
      e'.get_reg8 0 = 0 ∧
      (4294967295 : Nat) ≠ 0xffffff := by
  refine ⟨_, rfl, rfl, rfl, rfl, by decide⟩

/-- C6: when the skip flag is set at the start of a step, the step clears it,
advances PC by exactly the byte length of the decoded instruction at PC
(four bytes for a 32-bit instruction), increments the instruction counter,
and changes nothing else — registers, SREG, I/O memory and the shadow call
stack are untouched, as the record update shows. -/
theorem C6_skip_step (e : Emulator) (insn_bytes : List Nat) (opcode : String)
    (operands : List Operand)
    (hskip : e.skip_next_insn = true)
    (hinsn : e.pmem_asm e.pc = some (insn_bytes, opcode, operands)) :
    e._step = some { e with pc := e.pc + insn_bytes.length,
                            skip_next_insn := false,
                            insn_count := e.insn_count + 1 } := by
  simp only [Emulator._step, hinsn, Option.bind_eq_bind, Option.some_bind,
    hskip, if_true]

/-- C6 witness: skipping a four-byte `jmp` advances PC by four. -/
theorem C6_witness :
    skipEmu._step = some { skipEmu with
                             pc := skipEmu.pc + ([0x0c, 0x94, 0x32, 0x00] : List Nat).length,
                             skip_next_insn := false,
                             insn_count := skipEmu.insn_count + 1 } :=
  C6_skip_step skipEmu [0x0c, 0x94, 0x32, 0x00] ("jmp") [Operand.Imm 100]
    rfl rfl

/-- C7 (counterexample): a `ret` on the shadow stack `[(5,_,_), (100,_,_)]`
with SP ending at 50 stops pruning at the top frame (recorded SP 100 > 50)
and leaves the deeper frame with recorded SP 5 ≤ 50 on the stack. -/
theorem C7_cex :
    ((c7Emu.do_opcode ("ret") [] 0).map (fun p => p.1.call_stack) =
      some [(5, 0, 0), (100, 0, 0)]) ∧
    ((c7Emu.do_opcode ("ret") [] 0).map (fun p => p.1.io_mem.get_sp) =
      some (some 50)) ∧
    (5 : Nat) ≤ 50 := by
  refine ⟨rfl, rfl, by decide⟩

/-- C7 (amended): when the shadow stack's recorded SPs are nonincreasing from
bottom to top — as they are when frames are only created by calls — any `ret`
or `reti` leaves only frames whose recorded SP is strictly greater than the
current SP. -/
theorem C7_ret_prunes_monotone_stack (e : Emulator) (npc : Nat)
    (hbL : e.io_mem.data_mem SPL < 256)
    (hmono : e.call_stack.Pairwise (fun f g => g.1 ≤ f.1)) :
    (∃ e' ra sp', e.do_opcode ("ret") [] npc = some (e', ra) ∧
      e'.io_mem.get_sp = some sp' ∧ ∀ f ∈ e'.call_stack, sp' < f.1) ∧
    (∃ e2 ra2 sp2, e.do_opcode ("reti") [] npc = some (e2, ra2) ∧
      e2.io_mem.get_sp = some sp2 ∧ ∀ f ∈ e2.call_stack, sp2 < f.1) := by
  set sp0 := 256 * e.io_mem.data_mem SPH + e.io_mem.data_mem SPL with hsp0
  have hL : e.io_mem.data_mem SPL = sp0 % 256 := by omega
  have hH : e.io_mem.data_mem SPH = sp0 / 256 := by omega
  have hrev : e.call_stack.reverse.Pairwise (fun f g => f.1 ≤ g.1) := by
    rw [List.pairwise_reverse]
    exact hmono
  have hret_red : ∀ (ex : Emulator) (np : Nat), ex.do_opcode ("ret") [] np =
      (ex.pop_ret_addr).bind (fun p => some (p.2, p.1)) := fun ex np => rfl
  have hreti_red : ∀ (ex : Emulator) (np : Nat), ex.do_opcode ("reti") [] np =
      (({ ex with io_mem := { ex.io_mem with sreg := { ex.io_mem.sreg with i := true } } } : Emulator).pop_ret_addr).bind
        (fun p => some (p.2, p.1)) := fun ex np => rfl
  constructor
  · obtain ⟨ra0, m', hpop, sp', hmL, hmH, hsp'⟩ := pop24_succ e.io_mem sp0 hL hH
    have hgsp : m'.get_sp = some sp' := get_sp_val _ _ hmL hmH
    have hpr : e.pop_ret_addr = some (ra0 <<< 1,
        { e with io_mem := m', call_stack := (e.call_stack.reverse.dropWhile (fun f => decide (f.1 ≤ sp'))).reverse }) := by
      simp only [Emulator.pop_ret_addr, Option.bind_eq_bind, hpop,
        Option.some_bind, hgsp]
    refine ⟨{ e with io_mem := m', call_stack := (e.call_stack.reverse.dropWhile (fun f => decide (f.1 ≤ sp'))).reverse },
      ra0 <<< 1, sp', ?_, hgsp, ?_⟩
    · rw [hret_red, hpr]
      simp only [Option.some_bind]
    · intro f hf
      rw [List.mem_reverse] at hf
      exact dropWhile_all_gt sp' e.call_stack.reverse hrev f hf
  · obtain ⟨ra0, m', hpop, sp', hmL, hmH, hsp'⟩ :=
      pop24_succ { e.io_mem with sreg := { e.io_mem.sreg with i := true } } sp0 hL hH
    have hgsp : m'.get_sp = some sp' := get_sp_val _ _ hmL hmH
    have hpr : ({ e with io_mem := { e.io_mem with sreg := { e.io_mem.sreg with i := true } } } : Emulator).pop_ret_addr = some (ra0 <<< 1,
        { e with io_mem := m', call_stack := (e.call_stack.reverse.dropWhile (fun f => decide (f.1 ≤ sp'))).reverse }) := by
      simp only [Emulator.pop_ret_addr, Option.bind_eq_bind, hpop,
        Option.some_bind, hgsp]
    refine ⟨{ e with io_mem := m', call_stack := (e.call_stack.reverse.dropWhile (fun f => decide (f.1 ≤ sp'))).reverse },
      ra0 <<< 1, sp', ?_, hgsp, ?_⟩
    · rw [hreti_red, hpr]
      simp only [Option.some_bind]
    · intro f hf
      rw [List.mem_reverse] at hf
      exact dropWhile_all_gt sp' e.call_stack.reverse hrev f hf

/-- C7 witness: the amended theorem applied at the reset state (empty shadow
stack). -/
theorem C7_witness :
    (∃ e' ra sp', Emulator.new.do_opcode ("ret") [] 0 = some (e', ra) ∧
      e'.io_mem.get_sp = some sp' ∧ ∀ f ∈ e'.call_stack, sp' < f.1) ∧
    (∃ e2 ra2 sp2, Emulator.new.do_opcode ("reti") [] 0 = some (e2, ra2) ∧
      e2.io_mem.get_sp = some sp2 ∧ ∀ f ∈ e2.call_stack, sp2 < f.1) :=
  C7_ret_prunes_monotone_stack Emulator.new 0 (by decide) List.Pairwise.nil

/-- C8 (counterexample): from the reset I/O memory (counter 0) a read of
0x0408 returns 232 — the low byte of the counter after the increment by
1000 — not the low byte (0) of the counter observed before the increment. -/
theorem C8_cex :
    (IOMemory.new.get8 0x0408).map Prod.fst = some 232 ∧
    IOMemory.new.rtc_cnt &&& 0xff = 0 ∧ (232 : Nat) ≠ 0 := by
  refine ⟨rfl, rfl, by decide⟩

/-- C8 (amended): a read of 0x0408 first adds 1000 to the 16-bit counter
(wrapping) and returns the low byte of the incremented value; a subsequent
read of 0x0409 returns the high byte of that same incremented value; a read
of 0x0401 returns 0 with no side effect. -/
theorem C8_rtc_read (m : IOMemory) :
    ∃ m', m.get8 0x0408 = some (((m.rtc_cnt + 1000) % 65536) &&& 0xff, m') ∧
      m'.rtc_cnt = (m.rtc_cnt + 1000) % 65536 ∧
      m'.get8 0x0409 = some (((m.rtc_cnt + 1000) % 65536) >>> 8, m') ∧
      m.get8 0x0401 = some (0, m) := by
  exact ⟨{ m with rtc_cnt := (m.rtc_cnt + 1000) % 65536 }, rfl, rfl, rfl, rfl⟩

/-- C9: executing `sub` on byte-valued operands u (destination) and v sets
the carry flag exactly when u < v as unsigned integers. -/
theorem C9_sub_carry (e : Emulator) (d r npc : Nat)
    (hu : e.get_reg8 d < 256) (hv : e.get_reg8 r < 256) :
    ∃ e', e.do_opcode ("sub") [Operand.Reg d, Operand.Reg r] npc =
        some (e', npc) ∧
      (e'.io_mem.sreg.c = true ↔ e.get_reg8 d < e.get_reg8 r) := by
  refine ⟨_, rfl, ?_⟩
  exact sub_c_iff e.io_mem.sreg _ _ hu hv

/-- C9 witness: the theorem applied in the reset state (r16 = r17 = 0, so
C ends clear). -/
theorem C9_witness :
    ∃ e', Emulator.new.do_opcode ("sub") [Operand.Reg 16, Operand.Reg 17] 2 =
        some (e', 2) ∧
      (e'.io_mem.sreg.c = true ↔
        Emulator.new.get_reg8 16 < Emulator.new.get_reg8 17) :=
  C9_sub_carry Emulator.new 16 17 2 (by decide) (by decide)

/-- C10 (code evaluation at the failing input): in the reset state (all
flags clear) `clr r0` zeroes r0 but leaves SREG untouched (Z stays 0),
while `eor r0, r0` zeroes r0 and applies the logical flag recipe (Z = 1),
so the two do not produce the same machine state. -/
theorem C10_clr_skips_flags :
    ∃ e1 e2, Emulator.new.do_opcode ("clr") [Operand.Reg 0] 2 = some (e1, 2) ∧
      Emulator.new.do_opcode ("eor") [Operand.Reg 0, Operand.Reg 0] 2 =
        some (e2, 2) ∧
      e1.get_reg8 0 = 0 ∧ e2.get_reg8 0 = 0 ∧
      e1.io_mem.sreg.z = false ∧ e2.io_mem.sreg.z = true ∧
      e1.io_mem.sreg ≠ e2.io_mem.sreg := by
  refine ⟨_, _, rfl, rfl, rfl, rfl, rfl, rfl, by decide⟩

end Yaavre
